import Mathlib

/-!
Verification of the calendar event resolution and conflict-detection core
(`src/backend/src/controllers/eventController.ts`).

Stored times are modelled as natural numbers (milliseconds since the epoch,
mirroring JavaScript `Date.getTime()`), the Prisma event table as a
`List Event` in database order, and each controller as a pure function from
a request and the current store to a result and the next store.  The
third-party `rrule` library (occurrence generation and rule-text parsing)
is not part of this repository's sources, so those two pieces are modelled
from the specification and marked as such below.
-/

namespace Calendar

/-- A normalized recurrence rule.  `step` is the gap, in milliseconds,
between consecutive occurrence start instants of the series. -/
structure RRule where
  step : Nat
  deriving DecidableEq

/-- Milliseconds in one day. -/
def msPerDay : Nat := 86400000

/-- The empty string, named so defaults read explicitly. -/
def emptyStr : String := ""

/-- Splitting a character list at a separator, as `String.splitOn` does for
one-character separators. -/
def splitChars (sep : Char) : List Char → List (List Char)
  | [] => [[]]
  | c :: cs =>
    let r := splitChars sep cs
    if c = sep then [] :: r
    else
      match r with
      | [] => [[c]]
      | g :: gs => (c :: g) :: gs

/-- The numeric value of a decimal digit character, from its code point. -/
def digitVal (c : Char) : Option Nat :=
  let n := c.toNat
  if 48 ≤ n ∧ n ≤ 57 then some (n - 48) else none

/-- The natural number denoted by a nonempty list of decimal digits. -/
def digitsVal : List Char → Option Nat
  | [] => none
  | cs =>
    cs.foldl
      (fun acc c =>
        match acc, digitVal c with
        | some n, some d => some (10 * n + d)
        | _, _ => none)
      (some 0)

/-- Modelled from the spec (§4.1): step length of each supported frequency.
The `rrule` library that interprets rule text is a third-party dependency,
not code under `src/`; monthly and yearly use nominal fixed lengths since
the claims under study do not depend on calendar irregularity. -/
def freqStep (f : List Char) : Option Nat :=
  if f = ("DAILY").toList then some msPerDay
  else if f = ("WEEKLY").toList then some (7 * msPerDay)
  else if f = ("MONTHLY").toList then some (30 * msPerDay)
  else if f = ("YEARLY").toList then some (365 * msPerDay)
  else none

/-- Modelled from the spec (§4.1): `parse(ruleText, anchorInstant) -> Rule |
RuleParseError`.  Recognizes a frequency in {daily, weekly, monthly, yearly}
and an optional positive integer interval (default 1); anything else is a
parse error, encoded as `none`.  The concrete grammar (`FREQ=...;INTERVAL=...`)
follows the iCalendar RRULE strings the repository stores. -/
def parseRRule (s : String) : Option RRule :=
  match (splitChars ';' s.toList).map (fun p => splitChars '=' p) with
  | [[k1, f]] =>
    if k1 = ("FREQ").toList then (freqStep f).map (fun st => ⟨st⟩) else none
  | [[k1, f], [k2, n]] =>
    if k1 = ("FREQ").toList ∧ k2 = ("INTERVAL").toList then
      match freqStep f, digitsVal n with
      | some st, some k => if 0 < k then some ⟨k * st⟩ else none
      | _, _ => none
    else none
  | _ => none

/-- One row of the `Event` table.  Optional columns are `Option`; `rrule`
holds the raw rule text exactly as persisted. -/
structure Event where
  id : String
  title : String
  startTime : Nat
  endTime : Nat
  rrule : Option String
  recurrenceId : Option String
  originalStartTime : Option Nat
  isCancelled : Bool
  deriving DecidableEq

/-- JavaScript truthiness of a nullable string column: `null`/absent and the
empty string are falsy. -/
def truthy : Option String → Bool
  | none => false
  | some s => s != ""

/-- Modelled from the spec (§4.2): the rule anchored at `anchor` with step
`step` places an occurrence at instant `i` iff `i` is `anchor` plus a whole
number of steps. -/
def occursAt (anchor step i : Nat) : Bool :=
  decide (anchor ≤ i) && ((i - anchor) % step == 0)

/-- Modelled from the spec (§4.2): the OccurrenceGenerator.  Produces, in
ascending order and without duplicates, every instant `i` with
`a ≤ i < b` at which the rule places an occurrence.  The implementation in
the repository is the third-party `rrule` library's `between`, which is not
under `src/`. -/
def generate (anchor step a b : Nat) : List Nat :=
  (List.range b).filter (fun i => decide (a ≤ i) && occursAt anchor step i)

/-- One entry of the resolved instance list returned by the window query:
an event row as serialized, with the two extra fields the resolver adds to
virtual instances (`isRecurringInstance`, `masterId`). -/
structure Inst where
  id : String
  title : String
  startTime : Nat
  endTime : Nat
  rrule : Option String
  recurrenceId : Option String
  originalStartTime : Option Nat
  isCancelled : Bool
  isRecurringInstance : Bool
  masterId : Option String
  deriving DecidableEq

/-- A persisted row emitted verbatim into the resolved list (the extra
virtual-instance fields are absent, i.e. falsy). -/
def eventToInst (e : Event) : Inst :=
  { id := e.id
    title := e.title
    startTime := e.startTime
    endTime := e.endTime
    rrule := e.rrule
    recurrenceId := e.recurrenceId
    originalStartTime := e.originalStartTime
    isCancelled := e.isCancelled
    isRecurringInstance := false
    masterId := none }

/-- The virtual instance the resolver synthesizes for a generated occurrence
`occ` of master `m` with duration `dur`: a copy of the master with the id,
start, and end overridden and the generated-instance markers added. -/
def virtualInst (m : Event) (occ dur : Nat) : Inst :=
  { id := m.id ++ "_" ++ toString occ
    title := m.title
    startTime := occ
    endTime := occ + dur
    rrule := m.rrule
    recurrenceId := m.recurrenceId
    originalStartTime := m.originalStartTime
    isCancelled := m.isCancelled
    isRecurringInstance := true
    masterId := some m.id }

/-- The exception map of `getEvents`: events with truthy `recurrenceId` and a
present `originalStartTime` are keyed by that pair; a later record with the
same key overwrites an earlier one, as `Map.set` does. -/
def exceptionLookup (potential : List Event) (masterId : String) (occ : Nat) :
    Option Event :=
  (potential.filter (fun e => truthy e.recurrenceId && e.originalStartTime.isSome)).foldl
    (fun acc e =>
      if e.recurrenceId = some masterId ∧ e.originalStartTime = some occ then some e
      else acc)
    none

/-- The body of the per-occurrence loop of `getEvents`: probe the exception
map for `(m.id, occ)`; on a cancellation emit nothing, on a modification
emit the exception record itself, otherwise emit the virtual instance. -/
def resolveOccurrence (potential : List Event) (m : Event) (dur occ : Nat) :
    Option Inst :=
  match exceptionLookup potential m.id occ with
  | some ex => if ex.isCancelled then none else some (eventToInst ex)
  | none => some (virtualInst m occ dur)

/-- Expansion of one master over the window: parse its rule text (a failure
here is the thrown `rrulestr` error), generate the occurrences, and resolve
each against the exception map. -/
def expandMaster (potential : List Event) (a b : Nat) (m : Event) :
    Except String (List Inst) :=
  match parseRRule (m.rrule.getD emptyStr) with
  | none => Except.error ("Failed to fetch events")
  | some r =>
    Except.ok ((generate m.startTime r.step a b).filterMap
      (resolveOccurrence potential m (m.endTime - m.startTime)))

/-- The master loop of `getEvents`: a thrown parse error aborts the whole
request, discarding every instance already accumulated. -/
def expandAll (potential : List Event) (a b : Nat) :
    List Event → Except String (List Inst)
  | [] => Except.ok []
  | m :: rest =>
    match expandMaster potential a b m with
    | Except.error e => Except.error e
    | Except.ok l =>
      match expandAll potential a b rest with
      | Except.error e => Except.error e
      | Except.ok ls => Except.ok (l ++ ls)

/-- `getEvents` after the store fetch: partition the candidates exactly as
the code's truthiness filters do, emit singles verbatim, then append each
master's resolved expansion.  No sorting is performed anywhere. -/
def getEvents (a b : Nat) (potential : List Event) : Except String (List Inst) :=
  let masters := potential.filter (fun e => truthy e.rrule)
  let singles := potential.filter (fun e => !truthy e.rrule && !truthy e.recurrenceId)
  match expandAll potential a b masters with
  | Except.error e => Except.error e
  | Except.ok ls => Except.ok (singles.map eventToInst ++ ls)

/-- The half-open overlap test of the conflict queries: record `[s1,e1)`
against candidate `[s2,e2)` via `startTime < newEnd AND endTime > newStart`. -/
def overlaps (s1 e1 s2 e2 : Nat) : Bool :=
  decide (s1 < e2) && decide (s2 < e1)

/-- `prisma.event.findFirst` of the conflict queries: the first stored record
that overlaps the candidate interval, skipping the excluded id if any. -/
def findConflict (store : List Event) (s t : Nat) (excludeId : Option String) :
    Option Event :=
  store.find? (fun e =>
    (match excludeId with
     | some x => e.id != x
     | none => true) && overlaps e.startTime e.endTime s t)

/-- Whitespace for the purpose of trimming a title. -/
def isWs (c : Char) : Bool :=
  c = ' ' || c = '\t' || c = '\n' || c = '\r'

/-- Leading and trailing whitespace removed, as `title.trim()` does. -/
def trimChars (cs : List Char) : List Char :=
  ((cs.dropWhile isWs).reverse.dropWhile isWs).reverse

/-- The blank-title test of the validation step: absent, or trimming to the
empty string. -/
def blankTitle : Option String → Bool
  | none => true
  | some t => trimChars t.toList = []

inductive CreateResult where
  | validationError (msg : String)
  | conflict (c : Event)
  | created (e : Event)
  deriving DecidableEq

def CreateResult.isValidationError : CreateResult → Bool
  | CreateResult.validationError _ => true
  | _ => false

/-- `createEvent`: validate title and time order (both skipped for a
cancellation marker), then run the conflict query excluding the owning
master when a truthy `recurrenceId` is supplied, then persist. -/
def createEvent (store : List Event) (newId : String) (title : Option String)
    (startTime endTime : Nat) (rrule recurrenceId : Option String)
    (originalStartTime : Option Nat) (isCancelled : Bool) :
    CreateResult × List Event :=
  if !isCancelled && blankTitle title then
    (CreateResult.validationError ("Title is required and cannot be empty"), store)
  else if !isCancelled && decide (endTime ≤ startTime) then
    (CreateResult.validationError ("End time must be after start time"), store)
  else
    match findConflict store startTime endTime
        (if truthy recurrenceId then recurrenceId else none) with
    | some c => (CreateResult.conflict c, store)
    | none =>
      let e : Event :=
        { id := newId
          title := title.getD emptyStr
          startTime := startTime
          endTime := endTime
          rrule := rrule
          recurrenceId := recurrenceId
          originalStartTime := originalStartTime
          isCancelled := isCancelled }
      (CreateResult.created e, store ++ [e])

inductive UpdateResult where
  | validationError (msg : String)
  | conflict (c : Event)
  | notFound
  | updated
  deriving DecidableEq

/-- `updateEvent`: validate, run the conflict query excluding the updated id
itself, then rewrite the target row (404 when it is absent). -/
def updateEvent (store : List Event) (id : String) (title : Option String)
    (startTime endTime : Nat) (rrule : Option String) :
    UpdateResult × List Event :=
  if blankTitle title then
    (UpdateResult.validationError ("Title is required and cannot be empty"), store)
  else if decide (endTime ≤ startTime) then
    (UpdateResult.validationError ("End time must be after start time"), store)
  else
    match findConflict store startTime endTime (some id) with
    | some c => (UpdateResult.conflict c, store)
    | none =>
      if store.any (fun e => e.id == id) then
        (UpdateResult.updated,
          store.map (fun e =>
            if e.id = id then
              { e with
                title := title.getD emptyStr
                startTime := startTime
                endTime := endTime
                rrule := rrule }
            else e))
      else (UpdateResult.notFound, store)

inductive DeleteResult where
  | ok
  | notFound
  deriving DecidableEq

/-- `deleteEvent`: look the target up; a master (truthy `rrule`) is deleted
together with every exception whose `recurrenceId` equals its id inside one
transaction (rolled back wholesale if the final single-row delete finds no
row); any other target is deleted alone. -/
def deleteEvent (store : List Event) (id : String) : DeleteResult × List Event :=
  match store.find? (fun e => e.id == id) with
  | none => (DeleteResult.notFound, store)
  | some e =>
    if truthy e.rrule then
      let afterExceptions := store.filter (fun x => !(x.recurrenceId == some id))
      if afterExceptions.any (fun x => x.id == id) then
        (DeleteResult.ok, afterExceptions.filter (fun x => !(x.id == id)))
      else (DeleteResult.notFound, store)
    else
      (DeleteResult.ok, store.filter (fun x => !(x.id == id)))

/-! Concrete sample records used by witnesses and counterexamples. -/

/-- A plain single event occupying [100, 200). -/
def evSingle100 : Event :=
  ⟨"s1", "Standup", 100, 200, none, none, none, false⟩

/-- A daily master anchored at [0, 10). -/
def evMasterDaily0 : Event :=
  ⟨"m1", "Daily sync", 0, 10, some ("FREQ=DAILY"), none, none, false⟩

/-- A daily master anchored at [0, 10), used as the owner of the sample
exception below. -/
def evMasterC2 : Event :=
  ⟨"m2", "Series", 0, 10, some ("FREQ=DAILY"), none, none, false⟩

/-- A modification exception overriding occurrence 100 of master `m2`. -/
def evExC2 : Event :=
  ⟨"x2", "Moved series slot", 500, 600, none, some ("m2"), some 100, false⟩

/-- C1: the occurrence expansion anchored at the master's start produces
exactly the instants at which the rule places an occurrence inside the
half-open query window [a, b) — every produced instant lies in the window
and satisfies the rule (soundness), every in-window rule instant is
produced (completeness) — as an ordered, deduplicated sequence. -/
theorem generate_sound_complete_ordered (anchor step a b : Nat) :
    (∀ i, i ∈ generate anchor step a b ↔
      (occursAt anchor step i = true ∧ a ≤ i ∧ i < b))
    ∧ List.Sorted (· < ·) (generate anchor step a b)
    ∧ (generate anchor step a b).Nodup := by
  refine ⟨fun i => ?_, ?_, ?_⟩
  · simp only [generate, List.mem_filter, List.mem_range, Bool.and_eq_true,
      decide_eq_true_eq]
    tauto
  · exact (List.sorted_lt_range b).filter _
  · exact (List.nodup_range b).filter _

/-- C2: when the master's generated occurrence instant `t` has a matching
exception under the composite key (master id, t), a cancellation suppresses
the instance entirely, and a modification is emitted verbatim — its own id,
startTime, endTime, and title — in place of the virtual instance. -/
theorem exception_override (potential : List Event) (m ex : Event) (dur t : Nat)
    (hex : exceptionLookup potential m.id t = some ex) :
    (ex.isCancelled = true → resolveOccurrence potential m dur t = none)
    ∧ (ex.isCancelled = false →
        resolveOccurrence potential m dur t = some (eventToInst ex)
        ∧ (eventToInst ex).id = ex.id
        ∧ (eventToInst ex).startTime = ex.startTime
        ∧ (eventToInst ex).endTime = ex.endTime
        ∧ (eventToInst ex).title = ex.title) := by
  constructor <;> intro hc <;> simp [resolveOccurrence, hex, hc, eventToInst]

/-- Witness for C2: a concrete modification exception for master `m2` at
occurrence 100 replaces the virtual instance. -/
theorem exception_override_witness :
    resolveOccurrence [evMasterC2, evExC2] evMasterC2 10 100
      = some (eventToInst evExC2) :=
  ((exception_override [evMasterC2, evExC2] evMasterC2 evExC2 10 100 rfl).2 rfl).1

/-- C4 counterexample: the resolved instance list is not ordered by
ascending startTime.  With a single event at [100, 200) and a daily master
anchored at [0, 10) in the window [0, 150), `getEvents` emits the single
event first and the master's occurrence at instant 0 after it. -/
theorem resolve_order_counterexample :
    ¬ (∀ l, getEvents 0 150 [evSingle100, evMasterDaily0] = Except.ok l →
        List.Sorted (fun x y : Inst => x.startTime ≤ y.startTime) l) := by
  intro h
  have hval : getEvents 0 150 [evSingle100, evMasterDaily0]
      = Except.ok [eventToInst evSingle100, virtualInst evMasterDaily0 0 10] := by
    rfl
  have hs := h _ hval
  rw [List.sorted_cons] at hs
  have h100 := hs.1 (virtualInst evMasterDaily0 0 10) (by simp)
  simp [eventToInst, virtualInst, evSingle100, evMasterDaily0] at h100

/-- C4 amended: no global sort is applied — the output is the Single events
in candidate order followed by the per-master expansions — but within one
master's expansion, when no generated occurrence has a matching exception,
the emitted virtual instances are in strictly ascending startTime order. -/
theorem master_expansion_sorted (a b : Nat) (potential : List Event)
    (m : Event) (step dur : Nat)
    (h : ∀ t, exceptionLookup potential m.id t = none) :
    List.Sorted (fun x y : Inst => x.startTime < y.startTime)
      ((generate m.startTime step a b).filterMap
        (resolveOccurrence potential m dur)) := by
  have hmap : ∀ l : List Nat,
      l.filterMap (resolveOccurrence potential m dur)
        = l.map (fun t => virtualInst m t dur) := by
    intro l
    induction l with
    | nil => rfl
    | cons x xs ih => simp [List.filterMap_cons, resolveOccurrence, h x, ih]
  rw [hmap]
  have hg : List.Sorted (· < ·) (generate m.startTime step a b) :=
    (List.sorted_lt_range b).filter _
  exact List.pairwise_map.mpr (hg.imp (fun hlt => hlt))

/-- Witness for the amended C4: a store holding only the daily master has no
exceptions, and its expansion over [0, 350) with step 100 is ascending. -/
theorem master_expansion_sorted_witness :
    List.Sorted (fun x y : Inst => x.startTime < y.startTime)
      ((generate evMasterDaily0.startTime 100 0 350).filterMap
        (resolveOccurrence [evMasterDaily0] evMasterDaily0 10)) :=
  master_expansion_sorted 0 350 [evMasterDaily0] evMasterDaily0 100 10
    (fun _ => rfl)

/-- C3: the conflict predicate on two half-open intervals holds iff
`s1 < e2 ∧ s2 < e1`; it is symmetric, and intervals that merely touch at an
endpoint never conflict. -/
theorem overlaps_iff_symm_touching (s1 e1 s2 e2 : Nat) :
    (overlaps s1 e1 s2 e2 = true ↔ s1 < e2 ∧ s2 < e1)
    ∧ overlaps s1 e1 s2 e2 = overlaps s2 e2 s1 e1
    ∧ (e1 = s2 ∨ e2 = s1 → overlaps s1 e1 s2 e2 = false) := by
  refine ⟨?_, ?_, ?_⟩
  · simp [overlaps]
  · simp only [overlaps, Bool.and_comm]
  · rintro (h | h) <;> simp [overlaps] <;> omega

/-- Witness for C3 at the spec's scenario (minutes of the day):
[10:00,11:00) against [10:30,11:30) conflicts, and [09:00,10:00) against
[10:00,11:00) does not (touching boundary). -/
theorem overlaps_iff_symm_touching_witness :
    overlaps 600 660 630 690 = true ∧ overlaps 540 600 600 660 = false :=
  ⟨(overlaps_iff_symm_touching 600 660 630 690).1.mpr (by omega),
   (overlaps_iff_symm_touching 540 600 600 660).2.2 (Or.inl rfl)⟩

/-- Any record the conflict query returns under an exclusion id differs from
that id: the `findFirst` predicate conjoins `id != excluded`. -/
theorem findConflict_ne_exclude (store : List Event) (s t : Nat) (x : String)
    (c : Event) (h : findConflict store s t (some x) = some c) : c.id ≠ x := by
  have hp := List.find?_some h
  simp only [Bool.and_eq_true, bne_iff_ne] at hp
  exact hp.1

/-- C5: conflict detection excludes exactly the mandated record.  On update
the record under its own id is excluded, so when every stored overlap of the
new interval is the record itself no conflict is found and `updateEvent`
cannot answer with a conflict; and a create carrying a (truthy)
`recurrenceId` never reports the owning master — any conflict it returns has
a different id. -/
theorem conflict_exclusion (store : List Event) (s t : Nat) (id : String)
    (h : ∀ e ∈ store, overlaps e.startTime e.endTime s t = true → e.id = id) :
    findConflict store s t (some id) = none
    ∧ (∀ (ti rr : Option String) (c : Event),
        (updateEvent store id ti s t rr).1 ≠ UpdateResult.conflict c)
    ∧ (∀ (nid : String) (ti rr : Option String) (rid : String)
        (ost : Option Nat) (ic : Bool) (c : Event), rid ≠ "" →
        (createEvent store nid ti s t rr (some rid) ost ic).1
            = CreateResult.conflict c →
        c.id ≠ rid) := by
  have hnone : findConflict store s t (some id) = none := by
    rw [findConflict, List.find?_eq_none]
    intro e he
    simp only [Bool.and_eq_true, bne_iff_ne, not_and]
    intro hne hov
    exact hne (h e he hov)
  refine ⟨hnone, ?_, ?_⟩
  · intro ti rr c
    rw [updateEvent]
    cases hb : blankTitle ti
    · simp only [hb, Bool.false_eq_true, if_false]
      by_cases hts : t ≤ s
      · simp [hts]
      · simp only [hts, decide_False, if_false, hnone]
        by_cases ha : store.any (fun e => e.id == id) = true <;> simp [ha]
    · simp [hb]
  · intro nid ti rr rid ost ic c hrid hc
    rw [createEvent] at hc
    have htr : truthy (some rid) = true := by
      simpa [truthy, bne_iff_ne] using hrid
    by_cases h1 : (!ic && blankTitle ti) = true
    · simp [h1] at hc
    · simp only [h1, Bool.false_eq_true, if_false] at hc
      by_cases h2 : (!ic && decide (t ≤ s)) = true
      · simp [h2] at hc
      · simp only [h2, Bool.false_eq_true, if_false, htr, if_true] at hc
        cases hfc : findConflict store s t (some rid) with
        | none => rw [hfc] at hc; simp at hc
        | some c2 =>
          rw [hfc] at hc
          simp only [CreateResult.conflict.injEq] at hc
          exact hc ▸ findConflict_ne_exclude store s t rid c2 hfc

/-- Witness for C5: updating the sole stored event to an interval that
overlaps only itself finds no conflict. -/
theorem conflict_exclusion_witness :
    findConflict [evSingle100] 150 250 (some ("s1")) = none :=
  (conflict_exclusion [evSingle100] 150 250 "s1"
    (by
      intro e he hov
      rw [List.mem_singleton] at he
      subst he
      rfl)).1

/-- C6: on a non-cancellation create, a blank or missing title or an end not
strictly after the start yields a validation error with the store untouched
(so neither the conflict query nor the persist step can have run); on a
cancellation marker both checks are skipped and no validation error is
possible. -/
theorem create_validation (store : List Event) (nid : String)
    (ti : Option String) (s t : Nat) (rr rid : Option String)
    (ost : Option Nat) (h : blankTitle ti = true ∨ t ≤ s) :
    ((createEvent store nid ti s t rr rid ost false).1.isValidationError = true
      ∧ (createEvent store nid ti s t rr rid ost false).2 = store)
    ∧ ∀ (ti2 : Option String) (s2 t2 : Nat),
        (createEvent store nid ti2 s2 t2 rr rid ost true).1.isValidationError
          = false := by
  constructor
  · rcases h with h | h
    · simp [createEvent, h, CreateResult.isValidationError]
    · cases hb : blankTitle ti <;>
        simp [createEvent, hb, h, CreateResult.isValidationError]
  · intro ti2 s2 t2
    rw [createEvent]
    simp only [Bool.not_true, Bool.false_and, Bool.false_eq_true, if_false]
    cases hfc : findConflict store s2 t2 (if truthy rid then rid else none) <;>
      simp [hfc, CreateResult.isValidationError]

/-- Witness for C6: a whitespace-only title on a non-cancellation create is
rejected with the store unchanged. -/
theorem create_validation_witness :
    (createEvent [] "n1" (some ("   ")) 0 10 none none none
        false).1.isValidationError = true :=
  (create_validation [] "n1" (some ("   ")) 0 10 none none none
    (Or.inl rfl)).1.1

/-- A master whose stored rule text is not a valid recurrence description. -/
def evBadMaster : Event :=
  ⟨"bm", "Broken", 0, 10, some ("BOGUS"), none, none, false⟩

/-- A persisted cancellation exception whose placeholder interval is
[100, 200) and whose master is absent from the store. -/
def evCancel : Event :=
  ⟨"x1", "", 100, 200, none, some ("mgone"), some 100, true⟩

/-- C7 counterexample: a write carrying a malformed recurrence description
does not fail — the record is persisted unvalidated — and the parse failure
then aborts a whole window query, hiding an unrelated single event. -/
theorem rule_parse_counterexample :
    parseRRule ("BOGUS") = none
    ∧ (createEvent [] "bm" (some ("Broken")) 0 10 (some ("BOGUS")) none none
        false)
        = (CreateResult.created evBadMaster, [evBadMaster])
    ∧ getEvents 0 150 [evBadMaster, evSingle100]
        = Except.error ("Failed to fetch events") :=
  ⟨rfl, rfl, rfl⟩

/-- An expansion failure always carries the one fetch-failure message. -/
theorem expandMaster_error_eq (potential : List Event) (a b : Nat) (x : Event)
    (e : String) (h : expandMaster potential a b x = Except.error e) :
    e = "Failed to fetch events" := by
  rw [expandMaster] at h
  cases hp : parseRRule (x.rrule.getD emptyStr) with
  | none =>
    rw [hp] at h
    injection h with h2
    exact h2.symm
  | some r =>
    rw [hp] at h
    simp at h

/-- One master whose rule text fails to parse aborts the whole master loop. -/
theorem expandAll_error_of_mem (potential : List Event) (a b : Nat)
    (m : Event) (l : List Event) (hm : m ∈ l)
    (he : expandMaster potential a b m
        = Except.error ("Failed to fetch events")) :
    expandAll potential a b l = Except.error ("Failed to fetch events") := by
  induction l with
  | nil => cases hm
  | cons x xs ih =>
    rcases List.mem_cons.mp hm with rfl | hx
    · rw [expandAll, he]
    · rw [expandAll]
      cases hx2 : expandMaster potential a b x with
      | error e2 => rw [expandMaster_error_eq potential a b x e2 hx2]
      | ok l2 => rw [ih hx]

/-- C7 amended: a malformed recurrence description is not validated at write
time — the create succeeds and persists the record with the bad rule text
verbatim — and the parse failure instead surfaces during window resolution,
where it fails the entire window query rather than only the offending
record. -/
theorem rule_parse_write_read (store : List Event) (nid : String)
    (ti : Option String) (s t : Nat) (txt : String) (rid : Option String)
    (ost : Option Nat) (_hp : parseRRule txt = none)
    (hti : blankTitle ti = false) (hst : s < t)
    (hfc : findConflict store s t (if truthy rid then rid else none) = none)
    (a b : Nat) (potential : List Event) (m : Event) (hm : m ∈ potential)
    (hmr : truthy m.rrule = true)
    (hmp : parseRRule (m.rrule.getD emptyStr) = none) :
    (createEvent store nid ti s t (some txt) rid ost false).1
        = CreateResult.created
            ⟨nid, ti.getD emptyStr, s, t, some txt, rid, ost, false⟩
    ∧ (createEvent store nid ti s t (some txt) rid ost false).2
        = store ++ [⟨nid, ti.getD emptyStr, s, t, some txt, rid, ost, false⟩]
    ∧ getEvents a b potential = Except.error ("Failed to fetch events") := by
  have h2 : decide (t ≤ s) = false := decide_eq_false (by omega)
  have hcreate : createEvent store nid ti s t (some txt) rid ost false
      = (CreateResult.created
          ⟨nid, ti.getD emptyStr, s, t, some txt, rid, ost, false⟩,
        store ++ [⟨nid, ti.getD emptyStr, s, t, some txt, rid, ost, false⟩]) := by
    rw [createEvent, hfc]
    simp [hti, h2]
  have he : expandMaster potential a b m
      = Except.error ("Failed to fetch events") := by
    rw [expandMaster, hmp]
  have hread : getEvents a b potential
      = Except.error ("Failed to fetch events") := by
    rw [getEvents,
      expandAll_error_of_mem potential a b m _ (List.mem_filter.mpr ⟨hm, hmr⟩)
        he]
  exact ⟨by rw [hcreate], by rw [hcreate], hread⟩

/-- Witness for the amended C7: the record with rule text BOGUS is created
and persisted, then poisons the whole window query. -/
theorem rule_parse_write_read_witness :
    getEvents 0 150 [evBadMaster, evSingle100]
        = Except.error ("Failed to fetch events") :=
  (rule_parse_write_read [] "bm" (some ("Broken")) 0 10 "BOGUS" none none rfl
    rfl (by omega) rfl 0 150 [evBadMaster, evSingle100] evBadMaster
    (by simp) rfl rfl).2.2

/-- C8: deleting an id whose record carries a recurrence rule (a Master,
which under the data model carries no `recurrenceId` of its own) removes
that master and every exception referencing it in one step, leaving no
orphaned exception; deleting any other id — a Single or an Exception —
removes only records with that id; and in every case a record matching
neither criterion survives in place. -/
theorem delete_master_cascade (store : List Event) (id : String) (e : Event)
    (hfind : store.find? (fun x => x.id == id) = some e) :
    (truthy e.rrule = true → e.recurrenceId = none →
      (deleteEvent store id).1 = DeleteResult.ok
      ∧ (deleteEvent store id).2
          = store.filter
              (fun x => !(x.id == id) && !(x.recurrenceId == some id))
      ∧ ∀ x ∈ (deleteEvent store id).2, x.id ≠ id ∧ x.recurrenceId ≠ some id)
    ∧ (truthy e.rrule = false →
      (deleteEvent store id).1 = DeleteResult.ok
      ∧ (deleteEvent store id).2 = store.filter (fun x => !(x.id == id)))
    ∧ (∀ x ∈ store, x.id ≠ id → x.recurrenceId ≠ some id →
        x ∈ (deleteEvent store id).2) := by
  have hmem : e ∈ store := List.mem_of_find?_eq_some hfind
  have hpe := List.find?_some hfind
  refine ⟨?_, ?_, ?_⟩
  · intro ht hrid
    have hany : (store.filter
        (fun x => !(x.recurrenceId == some id))).any (fun x => x.id == id)
          = true :=
      List.any_eq_true.mpr ⟨e, List.mem_filter.mpr ⟨hmem, by simp [hrid]⟩, hpe⟩
    have hdel : deleteEvent store id
        = (DeleteResult.ok, store.filter
            (fun x => !(x.id == id) && !(x.recurrenceId == some id))) := by
      rw [deleteEvent, hfind]
      simp only [ht, if_true, hany, List.filter_filter]
    refine ⟨by rw [hdel], by rw [hdel], ?_⟩
    intro x hx
    rw [hdel] at hx
    have := (List.mem_filter.mp hx).2
    simp only [Bool.and_eq_true, Bool.not_eq_true', beq_eq_false_iff_ne]
      at this
    exact this
  · intro ht
    have hdel : deleteEvent store id
        = (DeleteResult.ok, store.filter (fun x => !(x.id == id))) := by
      rw [deleteEvent, hfind]
      simp [ht]
    rw [hdel]
    exact ⟨rfl, rfl⟩
  · intro x hx h1 h2
    cases ht : truthy e.rrule
    · have hdel : deleteEvent store id
          = (DeleteResult.ok, store.filter (fun y => !(y.id == id))) := by
        rw [deleteEvent, hfind]
        simp [ht]
      rw [hdel]
      exact List.mem_filter.mpr ⟨hx, by simp [h1]⟩
    · cases hc : (store.filter
          (fun y => !(y.recurrenceId == some id))).any (fun y => y.id == id)
      · have hdel : deleteEvent store id = (DeleteResult.notFound, store) := by
          rw [deleteEvent, hfind]
          simp [ht, hc]
        rw [hdel]
        exact hx
      · have hdel : deleteEvent store id
            = (DeleteResult.ok, (store.filter
                (fun y => !(y.recurrenceId == some id))).filter
                  (fun y => !(y.id == id))) := by
          rw [deleteEvent, hfind]
          simp only [ht, if_true, hc]
        rw [hdel]
        exact List.mem_filter.mpr
          ⟨List.mem_filter.mpr ⟨hx, by simp [h2]⟩, by simp [h1]⟩

/-- Witness for C8: deleting master m2 removes it and its exception x2 but
keeps the unrelated single event, and deleting the exception x2 by its own
id removes only that one record. -/
theorem delete_master_cascade_witness :
    (deleteEvent [evMasterC2, evExC2, evSingle100] "m2").2
        = [evMasterC2, evExC2, evSingle100].filter
            (fun x => !(x.id == "m2") && !(x.recurrenceId == some ("m2")))
    ∧ (deleteEvent [evMasterC2, evExC2, evSingle100] "x2").2
        = [evMasterC2, evExC2, evSingle100].filter (fun x => !(x.id == "x2")) :=
  ⟨((delete_master_cascade [evMasterC2, evExC2, evSingle100] "m2" evMasterC2
      rfl).1 rfl rfl).2.1,
   ((delete_master_cascade [evMasterC2, evExC2, evSingle100] "x2" evExC2
      rfl).2.1 rfl).2⟩

/-- C9: conflict detection compares the candidate only against stored
intervals, never against generated occurrences: the daily master anchored at
[0, 10) places an occurrence one day later at 86400000, the candidate
[86400000, 86400010) overlaps that occurrence and no stored interval, and
the create is accepted and persisted with no conflict reported. -/
theorem conflict_ignores_generated :
    occursAt evMasterDaily0.startTime
        ((parseRRule (evMasterDaily0.rrule.getD emptyStr)).getD ⟨0⟩).step
        86400000 = true
    ∧ 86400000 ≠ evMasterDaily0.startTime
    ∧ overlaps 86400000 86400010 86400000 86400010 = true
    ∧ ([evMasterDaily0].all
        (fun e => !overlaps e.startTime e.endTime 86400000 86400010)) = true
    ∧ (createEvent [evMasterDaily0] "n9" (some ("Meeting")) 86400000 86400010
        none none none false)
        = (CreateResult.created
            ⟨"n9", "Meeting", 86400000, 86400010, none, none, none, false⟩,
          [evMasterDaily0,
            ⟨"n9", "Meeting", 86400000, 86400010, none, none, none, false⟩]) :=
  ⟨rfl, by decide, rfl, rfl, rfl⟩

/-- C10: a persisted cancellation exception still acts as a conflict
candidate through its placeholder interval [100, 200): a later
non-cancellation create overlapping it is rejected with the cancellation
record as the named conflict, even though a store holding only that
cancellation resolves to the empty instance list in every window. -/
theorem cancellation_still_blocks :
    (createEvent [evCancel] "n10" (some ("New meeting")) 150 250 none none
        none false).1
        = CreateResult.conflict evCancel
    ∧ evCancel.isCancelled = true
    ∧ ∀ a b : Nat, getEvents a b [evCancel] = Except.ok [] :=
  ⟨rfl, rfl, fun _ _ => rfl⟩

end Calendar
